import Mathlib

/-!
Shallow embedding of the normalization and scoring engine of the btc-health
repository (`app/compute/normalize.py`, `app/compute/scores.py`,
`app/compute/formulas.py`).  Python floats are modelled as rationals (ℚ),
SQLite rows as lists/structures, fallible lookups as `Option`, and the
`dict_factory` row dictionaries of `app/storage/db.py` as association lists so
that a missing column (`KeyError`) is observable.
-/

/-- A stored percentile snapshot row of the `percentiles` table
(columns `p10,p25,p50,p75,p90,min_val,max_val`). -/
structure PercentileData where
  p10 : ℚ
  p25 : ℚ
  p50 : ℚ
  p75 : ℚ
  p90 : ℚ
  min_val : ℚ
  max_val : ℚ
deriving Repr, DecidableEq

/-- Ordered breakpoints: `min ≤ p10 ≤ p25 ≤ p50 ≤ p75 ≤ p90 ≤ max`. -/
def PercentileData.Ordered (d : PercentileData) : Prop :=
  d.min_val ≤ d.p10 ∧ d.p10 ≤ d.p25 ∧ d.p25 ≤ d.p50 ∧ d.p50 ≤ d.p75 ∧
    d.p75 ≤ d.p90 ∧ d.p90 ≤ d.max_val

instance (d : PercentileData) : Decidable d.Ordered := by
  unfold PercentileData.Ordered; infer_instance

/-- The percentile-rank interpolation of
`MetricNormalizer.get_percentile_rank` (`normalize.py`, lines 123-141):
piecewise-linear interpolation of `value` across the stored breakpoints.
In ℚ, `x / 0 = 0`; the division-by-zero analysis is done against
`get_percentile_rank_checked` below. -/
def get_percentile_rank_interp (d : PercentileData) (value : ℚ) : ℚ :=
  if value ≤ d.min_val then 0
  else if value ≥ d.max_val then 1
  else if value ≤ d.p10 then
    0.1 * (value - d.min_val) / (d.p10 - d.min_val)
  else if value ≤ d.p25 then
    0.1 + 0.15 * (value - d.p10) / (d.p25 - d.p10)
  else if value ≤ d.p50 then
    0.25 + 0.25 * (value - d.p25) / (d.p50 - d.p25)
  else if value ≤ d.p75 then
    0.5 + 0.25 * (value - d.p50) / (d.p75 - d.p50)
  else if value ≤ d.p90 then
    0.75 + 0.15 * (value - d.p75) / (d.p90 - d.p75)
  else
    0.9 + 0.1 * (value - d.p90) / (d.max_val - d.p90)

/-- Same branch structure as `get_percentile_rank_interp`, but each division
is guarded: the result is `none` exactly when the branch taken would divide
by a zero-width value range.  Used to express "never divides by zero". -/
def get_percentile_rank_checked (d : PercentileData) (value : ℚ) : Option ℚ :=
  if value ≤ d.min_val then some 0
  else if value ≥ d.max_val then some 1
  else if value ≤ d.p10 then
    if d.p10 - d.min_val = 0 then none
    else some (0.1 * (value - d.min_val) / (d.p10 - d.min_val))
  else if value ≤ d.p25 then
    if d.p25 - d.p10 = 0 then none
    else some (0.1 + 0.15 * (value - d.p10) / (d.p25 - d.p10))
  else if value ≤ d.p50 then
    if d.p50 - d.p25 = 0 then none
    else some (0.25 + 0.25 * (value - d.p25) / (d.p50 - d.p25))
  else if value ≤ d.p75 then
    if d.p75 - d.p50 = 0 then none
    else some (0.5 + 0.25 * (value - d.p50) / (d.p75 - d.p50))
  else if value ≤ d.p90 then
    if d.p90 - d.p75 = 0 then none
    else some (0.75 + 0.15 * (value - d.p75) / (d.p90 - d.p75))
  else
    if d.max_val - d.p90 = 0 then none
    else some (0.9 + 0.1 * (value - d.p90) / (d.max_val - d.p90))

/-- The `MetricNormalizer` configuration (`normalize.py`, `__init__`):
primary window (default 365 days) and fallback window (default 90 days). -/
structure MetricNormalizer where
  window_days : ℤ := 365
  fallback_days : ℤ := 90

/-- A percentile-snapshot store state: what `get_percentiles(metric_id,
window_days)` (the latest `percentiles` row for that key) would return. -/
def PctlStore := String → ℤ → Option PercentileData

/-- Model of `MetricNormalizer.get_percentile_rank` (`normalize.py`, lines
98-141): look up the snapshot for the requested window (defaulting to the
primary window), fall back to the snapshot of the fallback window, and
return `none` (no data) when neither exists. -/
def MetricNormalizer.get_percentile_rank (n : MetricNormalizer) (store : PctlStore)
    (metric_id : String) (value : ℚ) (window_days : Option ℤ) : Option ℚ :=
  let wd := window_days.getD n.window_days
  match store metric_id wd with
  | some pctl_data => some (get_percentile_rank_interp pctl_data value)
  | none =>
    match store metric_id n.fallback_days with
    | some pctl_data => some (get_percentile_rank_interp pctl_data value)
    | none => none

/-- Insertion of one value into a sorted list (ascending). -/
def insertSorted (x : ℚ) : List ℚ → List ℚ
  | [] => [x]
  | y :: ys => if x ≤ y then x :: y :: ys else y :: insertSorted x ys

/-- Ascending sort, as performed internally by `np.percentile`. -/
def sortList (l : List ℚ) : List ℚ := l.foldr insertSorted []

/-- Model of `np.percentile(values, p)` with the default linear interpolation:
rank `h = (n-1)*p/100` on the sorted sample, interpolating between the
floor/ceil order statistics. -/
def npPercentile (values : List ℚ) (p : ℚ) : ℚ :=
  let s := sortList values
  let n := s.length
  let h : ℚ := ((n : ℚ) - 1) * p / 100
  let i : ℕ := (⌊h⌋).toNat
  let lo := s.getD i 0
  let hi := s.getD (i + 1) lo
  lo + (h - (i : ℚ)) * (hi - lo)

/-- Model of `np.min` on a value list (the reached code paths have nonempty input). -/
def listMin : List ℚ → ℚ
  | [] => 0
  | x :: xs => xs.foldl min x

/-- Model of `np.max` on a value list (the reached code paths have nonempty input). -/
def listMax : List ℚ → ℚ
  | [] => 0
  | x :: xs => xs.foldl max x

/-- The percentile dictionary built by
`MetricNormalizer.calculate_percentiles` (`normalize.py`, lines 82-90). -/
def makePercentiles (values : List ℚ) : PercentileData :=
  { p10 := npPercentile values 10
    p25 := npPercentile values 25
    p50 := npPercentile values 50
    p75 := npPercentile values 75
    p90 := npPercentile values 90
    min_val := listMin values
    max_val := listMax values }

/-- Model of `MetricNormalizer.calculate_percentiles` (`normalize.py`,
lines 54-93).  `history w` models `get_metric_history(metric_id, w)` (the
measurement values of the metric inside a `w`-day lookback).  Returns the persisted
snapshot together with the window it is tagged with (`window_used`), or
`none` when the data is insufficient and no snapshot is stored. -/
def MetricNormalizer.calculate_percentiles (n : MetricNormalizer)
    (history : ℤ → List ℚ) : Option (ℤ × PercentileData) :=
  let h1 := history n.window_days
  if h1.length < 30 then
    let h2 := history n.fallback_days
    if h2.length < 10 then none
    else some (n.fallback_days, makePercentiles h2)
  else some (n.window_days, makePercentiles h1)

/-- A `metric_definitions` row (`scores.py` reads `pillar_id`, `direction`,
`weight`, `target_min`, `target_max`; nullable columns are `Option`). -/
structure MetricDefinition where
  metric_id : String
  pillar_id : String
  direction : String
  weight : Option ℚ
  target_min : Option ℚ
  target_max : Option ℚ

/-- A `pillar_definitions` row (`scores.py` reads `pillar_id`, `weight`). -/
structure PillarDefinition where
  pillar_id : String
  weight : Option ℚ

/-- Model of `ScoreCalculator.calculate_metric_score` (`scores.py`, lines 81-144).
`metricsLatest` models `get_latest_metric` (value of the newest `metrics`
row for an id); `store` models the percentile snapshot store read through
`self.normalizer`.  `Except.ok none` models the Python `return None`,
`Except.ok (some s)` a returned score, and `Except.error` an uncaught
exception: each target-band division is guarded so that a zero denominator
is the `ZeroDivisionError` the Python expression raises, not a value. -/
def calculate_metric_score (n : MetricNormalizer) (store : PctlStore)
    (metricsLatest : String → Option ℚ) (metric_id : String)
    (definition : MetricDefinition) : Except String (Option ℚ) :=
  match metricsLatest metric_id with
  | none => Except.ok none
  | some value =>
    if definition.direction = "target_band" then
      match definition.target_min, definition.target_max with
      | some target_min, some target_max =>
        let target_center := (target_min + target_max) / 2
        let target_range := target_max - target_min
        if target_min ≤ value ∧ value ≤ target_max then
          if target_range / 2 = 0 then Except.error "ZeroDivisionError"
          else Except.ok
            (some (100 * (1 - |value - target_center| / (target_range / 2))))
        else if value < target_min then
          if target_min = 0 then Except.error "ZeroDivisionError"
          else Except.ok
            (some (max 0 (50 * (1 - (target_min - value) / target_min))))
        else
          if target_max = 0 then Except.error "ZeroDivisionError"
          else Except.ok
            (some (max 0 (50 * (1 - (value - target_max) / target_max))))
      | _, _ => Except.ok (some 50)
    else
      match n.get_percentile_rank store metric_id value none with
      | none => Except.ok none
      | some rank =>
        if definition.direction = "higher_better" then
          Except.ok (some (rank * 100))
        else if definition.direction = "lower_better" then
          Except.ok (some ((1 - rank) * 100))
        else Except.ok none

/-- The Python or-default applied to the weight column in
`calculate_pillar_score` (`weight or 1.0`): `None` and the falsy `0` both
become `1.0`. -/
def weightOrOne (w : Option ℚ) : ℚ :=
  match w with
  | none => 1
  | some x => if x = 0 then 1 else x

/-- Model of `ScoreCalculator.calculate_pillar_score` (`scores.py`, lines
146-182): loop over the metric definitions of this pillar, accumulating
`(total_weight, weighted_sum)` over the metrics present in `metric_scores`. -/
def calculate_pillar_score (metrics : List MetricDefinition) (pillar_id : String)
    (metric_scores : String → Option ℚ) : Option ℚ :=
  let pillar_metrics := metrics.filter (fun m => m.pillar_id = pillar_id)
  if pillar_metrics.isEmpty then none
  else
    let acc := pillar_metrics.foldl
      (fun (acc : ℚ × ℚ) m =>
        let weight := weightOrOne m.weight
        match metric_scores m.metric_id with
        | some score => (acc.1 + weight, acc.2 + score * weight)
        | none => acc)
      (0, 0)
    if acc.1 = 0 then none else some (acc.2 / acc.1)

/-- Model of `ScoreCalculator.calculate_overall_score` (`scores.py`, lines
184-210): like the pillar aggregation but over pillar definitions, with the
or-default `weight or 0` on the pillar weight (unset weight becomes `0`). -/
def calculate_overall_score (pillars : List PillarDefinition)
    (pillar_scores : String → Option ℚ) : Option ℚ :=
  let acc := pillars.foldl
    (fun (acc : ℚ × ℚ) p =>
      let weight := (p.weight).getD 0
      match pillar_scores p.pillar_id with
      | some score => (acc.1 + weight, acc.2 + score * weight)
      | none => acc)
    (0, 0)
  if acc.1 = 0 then none else some (acc.2 / acc.1)

/-- Model of `SELECT score FROM scores ... ORDER BY ts DESC LIMIT 1`: the
row with the greatest timestamp among the given `(ts, score)` rows (`none`
on an empty result set). -/
def latestScore : List (ℤ × ℚ) → Option (ℤ × ℚ)
  | [] => none
  | r :: t => some (t.foldl (fun a q => if a.1 < q.1 then q else a) r)

/-- Model of `ScoreCalculator.calculate_trend` (`scores.py`, lines 212-247)
for one `(kind, id)`: `rows` are the persisted `(ts, score)` records, `now` the
current UTC timestamp.  Returns the percentage change of the newest score
against the newest score at or before `now - days*86400`, or `none`. -/
def calculate_trend (rows : List (ℤ × ℚ)) (now : ℤ) (days : ℤ) : Option ℚ :=
  match latestScore rows with
  | none => none
  | some current =>
    let cutoff := now - days * 86400
    match latestScore (rows.filter (fun r => r.1 ≤ cutoff)) with
    | none => none
    | some historical =>
      if historical.2 = 0 then none
      else some ((current.2 - historical.2) / historical.2 * 100)

/-- A SQLite column value, as surfaced to Python. -/
inductive SqlValue where
  | int (i : ℤ)
  | real (q : ℚ)
  | text (s : String)
deriving DecidableEq, Repr

/-- A row as produced by `dict_factory` (`db.py`, lines 30-33): keys are
exactly the selected columns.  Looking up an unselected column is a
`KeyError`, i.e. `none` here. -/
def rowGet (r : List (String × SqlValue)) (k : String) : Option SqlValue :=
  match r.find? (fun kv => kv.1 = k) with
  | some kv => some kv.2
  | none => none

/-- A physical `raw_pool_shares` row. -/
structure PoolShareRow where
  ts : ℤ
  pool : String
  share : ℚ

/-- Insertion step of a stable insertion sort with comparator `le`. -/
def insertBy {α : Type} (le : α → α → Bool) (x : α) : List α → List α
  | [] => [x]
  | y :: ys => if le x y then x :: y :: ys else y :: insertBy le x ys

/-- Stable insertion sort with comparator `le`. -/
def isortBy {α : Type} (le : α → α → Bool) (l : List α) : List α :=
  l.foldr (insertBy le) []

/-- The `ORDER BY ts DESC, share DESC` comparator on `raw_pool_shares` rows. -/
def poolOrder (r1 r2 : PoolShareRow) : Bool :=
  decide (r2.ts < r1.ts ∨ (r1.ts = r2.ts ∧ r2.share ≤ r1.share))

/-- Model of the query `SELECT pool, share FROM raw_pool_shares WHERE ts >= ?
ORDER BY ts DESC, share DESC` (`formulas.py`, lines 117-124): only the `pool`
and `share` columns are selected, so the produced dictionaries have no `ts`
key. -/
def poolSharesQuery (table : List PoolShareRow) (cutoff : ℤ) :
    List (List (String × SqlValue)) :=
  (isortBy poolOrder (table.filter (fun r => cutoff ≤ r.ts))).map
    (fun r => [("pool", SqlValue.text r.pool), ("share", SqlValue.real r.share)])

/-- The `ts` subscript on a query row: `KeyError` when the key is absent. -/
def getTs (p : List (String × SqlValue)) : Except String SqlValue :=
  match rowGet p "ts" with
  | some v => Except.ok v
  | none => Except.error "KeyError: ts"

/-- The `share` subscript on a query row, used as a number. -/
def getShare (p : List (String × SqlValue)) : Except String ℚ :=
  match rowGet p "share" with
  | some (SqlValue.real q) => Except.ok q
  | some (SqlValue.int i) => Except.ok (i : ℚ)
  | some (SqlValue.text _) => Except.error "TypeError: str"
  | none => Except.error "KeyError: share"

/-- The comprehension keeping the rows whose `ts` equals `latest_ts`
(`formulas.py`, line 129); the `ts` subscript on each element can raise. -/
def filterByTs (pools : List (List (String × SqlValue))) (latest_ts : SqlValue) :
    Except String (List (List (String × SqlValue))) :=
  match pools with
  | [] => Except.ok []
  | p :: rest => do
    let v ← getTs p
    let tail ← filterByTs rest latest_ts
    pure (if v = latest_ts then p :: tail else tail)

/-- The sum of the `share` subscripts over the rows (`formulas.py`, line 132). -/
def sumShares (pools : List (List (String × SqlValue))) : Except String ℚ :=
  match pools with
  | [] => Except.ok 0
  | p :: rest => do
    let s ← getShare p
    let tail ← sumShares rest
    pure (s + tail)

/-- The normalized share list built on `formulas.py`, line 135. -/
def normalizedShares (pools : List (List (String × SqlValue))) (total_share : ℚ) :
    Except String (List ℚ) :=
  match pools with
  | [] => Except.ok []
  | p :: rest => do
    let s ← getShare p
    let tail ← normalizedShares rest total_share
    pure (s / total_share :: tail)

/-- Model of `MetricCalculator.calculate_pool_hhi` (`formulas.py`, lines 112-146).
Returns the list of `(metric_id, value)` pairs passed to `upsert_metric`,
or the uncaught Python exception. -/
def calculate_pool_hhi (table : List PoolShareRow) (now : ℤ) :
    Except String (List (String × ℚ)) :=
  let cutoff := now - 86400
  let pools := poolSharesQuery table cutoff
  match pools with
  | [] => Except.ok []
  | first :: _ => do
    let latest_ts ← getTs first
    let current_pools ← filterByTs pools latest_ts
    let total_share ← sumShares current_pools
    if 0 < total_share then do
      let shares ← normalizedShares current_pools total_share
      let hhi := (shares.map (fun s => s ^ 2)).sum
      let sorted_shares := isortBy (fun a b : ℚ => decide (b ≤ a)) shares
      let top3_share := (sorted_shares.take 3).sum
      pure [("decent.pool_hhi", hhi), ("decent.pool_top3", top3_share)]
    else pure []

/-- The synthetic sample `1..100` of the percentile example in the spec. -/
def oneTo100 : List ℚ := (List.range 100).map (fun i : ℕ => (i : ℚ) + 1)

/-! ### Helper lemmas about the piecewise-linear rank interpolation -/

theorem div_term_nonneg (c a b w : ℚ) (hc : 0 ≤ c) (haw : a ≤ w) (hab : a < b) :
    0 ≤ c * (w - a) / (b - a) := by
  apply div_nonneg (mul_nonneg hc (by linarith)) (by linarith)

theorem div_term_le (c a b w : ℚ) (hc : 0 ≤ c) (hwb : w ≤ b) (hab : a < b) :
    c * (w - a) / (b - a) ≤ c := by
  rw [div_le_iff₀ (by linarith : (0:ℚ) < b - a)]
  exact mul_le_mul_of_nonneg_left (by linarith) hc

theorem div_term_mono (c a b v1 v2 : ℚ) (hc : 0 ≤ c) (hab : a < b) (h : v1 ≤ v2) :
    c * (v1 - a) / (b - a) ≤ c * (v2 - a) / (b - a) := by
  rw [div_le_div_iff_of_pos_right (by linarith : (0:ℚ) < b - a)]
  exact mul_le_mul_of_nonneg_left (by linarith) hc

theorem rank_nonneg (d : PercentileData) (v : ℚ) (hord : d.Ordered) :
    0 ≤ get_percentile_rank_interp d v := by
  obtain ⟨o1, o2, o3, o4, o5, o6⟩ := hord
  unfold get_percentile_rank_interp
  split_ifs with h1 h2 h3 h4 h5 h6 h7
  · norm_num
  · norm_num
  · have := div_term_nonneg 0.1 d.min_val d.p10 v (by norm_num) (by linarith) (by linarith)
    linarith
  · have := div_term_nonneg 0.15 d.p10 d.p25 v (by norm_num) (by linarith) (by linarith)
    linarith
  · have := div_term_nonneg 0.25 d.p25 d.p50 v (by norm_num) (by linarith) (by linarith)
    linarith
  · have := div_term_nonneg 0.25 d.p50 d.p75 v (by norm_num) (by linarith) (by linarith)
    linarith
  · have := div_term_nonneg 0.15 d.p75 d.p90 v (by norm_num) (by linarith) (by linarith)
    linarith
  · have hv : d.p90 < v := by push_neg at h7; exact h7
    have hm : v < d.max_val := by push_neg at h2; exact h2
    have := div_term_nonneg 0.1 d.p90 d.max_val v (by norm_num) (by linarith) (by linarith)
    linarith

theorem rank_le_one (d : PercentileData) (v : ℚ) (hord : d.Ordered) :
    get_percentile_rank_interp d v ≤ 1 := by
  obtain ⟨o1, o2, o3, o4, o5, o6⟩ := hord
  unfold get_percentile_rank_interp
  split_ifs with h1 h2 h3 h4 h5 h6 h7
  · norm_num
  · norm_num
  · have := div_term_le 0.1 d.min_val d.p10 v (by norm_num) h3 (by push_neg at h1; linarith)
    linarith
  · have := div_term_le 0.15 d.p10 d.p25 v (by norm_num) h4 (by push_neg at h3; linarith)
    linarith
  · have := div_term_le 0.25 d.p25 d.p50 v (by norm_num) h5 (by push_neg at h4; linarith)
    linarith
  · have := div_term_le 0.25 d.p50 d.p75 v (by norm_num) h6 (by push_neg at h5; linarith)
    linarith
  · have := div_term_le 0.15 d.p75 d.p90 v (by norm_num) h7 (by push_neg at h6; linarith)
    linarith
  · have hm : v < d.max_val := by push_neg at h2; exact h2
    have := div_term_le 0.1 d.p90 d.max_val v (by norm_num) (le_of_lt hm)
      (by push_neg at h7; linarith)
    linarith

theorem rank_eval_min (d : PercentileData) (v : ℚ) (h : v ≤ d.min_val) :
    get_percentile_rank_interp d v = 0 := by
  unfold get_percentile_rank_interp
  rw [if_pos h]

theorem rank_eval_max (d : PercentileData) (v : ℚ) (h0 : ¬ v ≤ d.min_val)
    (h : d.max_val ≤ v) : get_percentile_rank_interp d v = 1 := by
  unfold get_percentile_rank_interp
  rw [if_neg h0, if_pos (show v ≥ d.max_val from h)]

theorem rank_eval_seg1 (d : PercentileData) (v : ℚ) (hord : d.Ordered)
    (h1 : d.min_val < v) (h2 : v ≤ d.p10) (h3 : v < d.max_val) :
    get_percentile_rank_interp d v = 0.1 * (v - d.min_val) / (d.p10 - d.min_val) := by
  obtain ⟨o1, o2, o3, o4, o5, o6⟩ := hord
  unfold get_percentile_rank_interp
  split_ifs <;> first | rfl | linarith

theorem rank_eval_seg2 (d : PercentileData) (v : ℚ) (hord : d.Ordered)
    (h1 : d.p10 < v) (h2 : v ≤ d.p25) (h3 : v < d.max_val) :
    get_percentile_rank_interp d v = 0.1 + 0.15 * (v - d.p10) / (d.p25 - d.p10) := by
  obtain ⟨o1, o2, o3, o4, o5, o6⟩ := hord
  unfold get_percentile_rank_interp
  split_ifs <;> first | rfl | linarith

theorem rank_eval_seg3 (d : PercentileData) (v : ℚ) (hord : d.Ordered)
    (h1 : d.p25 < v) (h2 : v ≤ d.p50) (h3 : v < d.max_val) :
    get_percentile_rank_interp d v = 0.25 + 0.25 * (v - d.p25) / (d.p50 - d.p25) := by
  obtain ⟨o1, o2, o3, o4, o5, o6⟩ := hord
  unfold get_percentile_rank_interp
  split_ifs <;> first | rfl | linarith

theorem rank_eval_seg4 (d : PercentileData) (v : ℚ) (hord : d.Ordered)
    (h1 : d.p50 < v) (h2 : v ≤ d.p75) (h3 : v < d.max_val) :
    get_percentile_rank_interp d v = 0.5 + 0.25 * (v - d.p50) / (d.p75 - d.p50) := by
  obtain ⟨o1, o2, o3, o4, o5, o6⟩ := hord
  unfold get_percentile_rank_interp
  split_ifs <;> first | rfl | linarith

theorem rank_eval_seg5 (d : PercentileData) (v : ℚ) (hord : d.Ordered)
    (h1 : d.p75 < v) (h2 : v ≤ d.p90) (h3 : v < d.max_val) :
    get_percentile_rank_interp d v = 0.75 + 0.15 * (v - d.p75) / (d.p90 - d.p75) := by
  obtain ⟨o1, o2, o3, o4, o5, o6⟩ := hord
  unfold get_percentile_rank_interp
  split_ifs <;> first | rfl | linarith

theorem rank_eval_seg6 (d : PercentileData) (v : ℚ) (hord : d.Ordered)
    (h1 : d.p90 < v) (h3 : v < d.max_val) :
    get_percentile_rank_interp d v = 0.9 + 0.1 * (v - d.p90) / (d.max_val - d.p90) := by
  obtain ⟨o1, o2, o3, o4, o5, o6⟩ := hord
  unfold get_percentile_rank_interp
  split_ifs <;> first | rfl | linarith

theorem rank_ub_p10 (d : PercentileData) (v : ℚ) (hord : d.Ordered)
    (hm : v < d.max_val) (h : v ≤ d.p10) : get_percentile_rank_interp d v ≤ 0.1 := by
  obtain ⟨o1, o2, o3, o4, o5, o6⟩ := hord
  unfold get_percentile_rank_interp
  split_ifs with h1 h2
  · norm_num
  · linarith
  · exact div_term_le 0.1 d.min_val d.p10 v (by norm_num) h (by linarith)

theorem rank_ub_p25 (d : PercentileData) (v : ℚ) (hord : d.Ordered)
    (hm : v < d.max_val) (h : v ≤ d.p25) : get_percentile_rank_interp d v ≤ 0.25 := by
  obtain ⟨o1, o2, o3, o4, o5, o6⟩ := hord
  unfold get_percentile_rank_interp
  split_ifs with h1 h2 h3
  · norm_num
  · linarith
  · have := div_term_le 0.1 d.min_val d.p10 v (by norm_num) h3 (by linarith)
    linarith
  · have := div_term_le 0.15 d.p10 d.p25 v (by norm_num) h (by linarith)
    linarith

theorem rank_ub_p50 (d : PercentileData) (v : ℚ) (hord : d.Ordered)
    (hm : v < d.max_val) (h : v ≤ d.p50) : get_percentile_rank_interp d v ≤ 0.5 := by
  obtain ⟨o1, o2, o3, o4, o5, o6⟩ := hord
  unfold get_percentile_rank_interp
  split_ifs with h1 h2 h3 h4
  · norm_num
  · linarith
  · have := div_term_le 0.1 d.min_val d.p10 v (by norm_num) h3 (by linarith)
    linarith
  · have := div_term_le 0.15 d.p10 d.p25 v (by norm_num) h4 (by linarith)
    linarith
  · have := div_term_le 0.25 d.p25 d.p50 v (by norm_num) h (by linarith)
    linarith

theorem rank_ub_p75 (d : PercentileData) (v : ℚ) (hord : d.Ordered)
    (hm : v < d.max_val) (h : v ≤ d.p75) : get_percentile_rank_interp d v ≤ 0.75 := by
  obtain ⟨o1, o2, o3, o4, o5, o6⟩ := hord
  unfold get_percentile_rank_interp
  split_ifs with h1 h2 h3 h4 h5
  · norm_num
  · linarith
  · have := div_term_le 0.1 d.min_val d.p10 v (by norm_num) h3 (by linarith)
    linarith
  · have := div_term_le 0.15 d.p10 d.p25 v (by norm_num) h4 (by linarith)
    linarith
  · have := div_term_le 0.25 d.p25 d.p50 v (by norm_num) h5 (by linarith)
    linarith
  · have := div_term_le 0.25 d.p50 d.p75 v (by norm_num) h (by linarith)
    linarith

theorem rank_ub_p90 (d : PercentileData) (v : ℚ) (hord : d.Ordered)
    (hm : v < d.max_val) (h : v ≤ d.p90) : get_percentile_rank_interp d v ≤ 0.9 := by
  obtain ⟨o1, o2, o3, o4, o5, o6⟩ := hord
  unfold get_percentile_rank_interp
  split_ifs with h1 h2 h3 h4 h5 h6
  · norm_num
  · linarith
  · have := div_term_le 0.1 d.min_val d.p10 v (by norm_num) h3 (by linarith)
    linarith
  · have := div_term_le 0.15 d.p10 d.p25 v (by norm_num) h4 (by linarith)
    linarith
  · have := div_term_le 0.25 d.p25 d.p50 v (by norm_num) h5 (by linarith)
    linarith
  · have := div_term_le 0.25 d.p50 d.p75 v (by norm_num) h6 (by linarith)
    linarith
  · have := div_term_le 0.15 d.p75 d.p90 v (by norm_num) h (by linarith)
    linarith

theorem rank_lb_p10 (d : PercentileData) (v : ℚ) (hord : d.Ordered)
    (h : d.p10 < v) : 0.1 ≤ get_percentile_rank_interp d v := by
  obtain ⟨o1, o2, o3, o4, o5, o6⟩ := hord
  unfold get_percentile_rank_interp
  split_ifs with h1 h2 h3 h4 h5 h6 h7
  · linarith
  · norm_num
  · linarith
  · have := div_term_nonneg 0.15 d.p10 d.p25 v (by norm_num) (by linarith) (by linarith)
    linarith
  · have := div_term_nonneg 0.25 d.p25 d.p50 v (by norm_num) (by linarith) (by linarith)
    linarith
  · have := div_term_nonneg 0.25 d.p50 d.p75 v (by norm_num) (by linarith) (by linarith)
    linarith
  · have := div_term_nonneg 0.15 d.p75 d.p90 v (by norm_num) (by linarith) (by linarith)
    linarith
  · have := div_term_nonneg 0.1 d.p90 d.max_val v (by norm_num) (by linarith) (by linarith)
    linarith

theorem rank_lb_p25 (d : PercentileData) (v : ℚ) (hord : d.Ordered)
    (h : d.p25 < v) : 0.25 ≤ get_percentile_rank_interp d v := by
  obtain ⟨o1, o2, o3, o4, o5, o6⟩ := hord
  unfold get_percentile_rank_interp
  split_ifs with h1 h2 h3 h4 h5 h6 h7
  · linarith
  · norm_num
  · linarith
  · linarith
  · have := div_term_nonneg 0.25 d.p25 d.p50 v (by norm_num) (by linarith) (by linarith)
    linarith
  · have := div_term_nonneg 0.25 d.p50 d.p75 v (by norm_num) (by linarith) (by linarith)
    linarith
  · have := div_term_nonneg 0.15 d.p75 d.p90 v (by norm_num) (by linarith) (by linarith)
    linarith
  · have := div_term_nonneg 0.1 d.p90 d.max_val v (by norm_num) (by linarith) (by linarith)
    linarith

theorem rank_lb_p50 (d : PercentileData) (v : ℚ) (hord : d.Ordered)
    (h : d.p50 < v) : 0.5 ≤ get_percentile_rank_interp d v := by
  obtain ⟨o1, o2, o3, o4, o5, o6⟩ := hord
  unfold get_percentile_rank_interp
  split_ifs with h1 h2 h3 h4 h5 h6 h7
  · linarith
  · norm_num
  · linarith
  · linarith
  · linarith
  · have := div_term_nonneg 0.25 d.p50 d.p75 v (by norm_num) (by linarith) (by linarith)
    linarith
  · have := div_term_nonneg 0.15 d.p75 d.p90 v (by norm_num) (by linarith) (by linarith)
    linarith
  · have := div_term_nonneg 0.1 d.p90 d.max_val v (by norm_num) (by linarith) (by linarith)
    linarith

theorem rank_lb_p75 (d : PercentileData) (v : ℚ) (hord : d.Ordered)
    (h : d.p75 < v) : 0.75 ≤ get_percentile_rank_interp d v := by
  obtain ⟨o1, o2, o3, o4, o5, o6⟩ := hord
  unfold get_percentile_rank_interp
  split_ifs with h1 h2 h3 h4 h5 h6 h7
  · linarith
  · norm_num
  · linarith
  · linarith
  · linarith
  · linarith
  · have := div_term_nonneg 0.15 d.p75 d.p90 v (by norm_num) (by linarith) (by linarith)
    linarith
  · have := div_term_nonneg 0.1 d.p90 d.max_val v (by norm_num) (by linarith) (by linarith)
    linarith

theorem rank_lb_p90 (d : PercentileData) (v : ℚ) (hord : d.Ordered)
    (h : d.p90 < v) : 0.9 ≤ get_percentile_rank_interp d v := by
  obtain ⟨o1, o2, o3, o4, o5, o6⟩ := hord
  unfold get_percentile_rank_interp
  split_ifs with h1 h2 h3 h4 h5 h6 h7
  · linarith
  · norm_num
  · linarith
  · linarith
  · linarith
  · linarith
  · linarith
  · have := div_term_nonneg 0.1 d.p90 d.max_val v (by norm_num) (by linarith) (by linarith)
    linarith

/-- Monotonicity of the rank interpolation in the value, for ordered
breakpoints. -/
theorem rank_mono (d : PercentileData) (v1 v2 : ℚ) (hord : d.Ordered)
    (h12 : v1 ≤ v2) :
    get_percentile_rank_interp d v1 ≤ get_percentile_rank_interp d v2 := by
  obtain ⟨o1, o2, o3, o4, o5, o6⟩ := hord
  by_cases hv1min : v1 ≤ d.min_val
  · rw [rank_eval_min d v1 hv1min]
    exact rank_nonneg d v2 ⟨o1, o2, o3, o4, o5, o6⟩
  · have hminv1 : d.min_val < v1 := lt_of_not_le hv1min
    have hminv2 : d.min_val < v2 := lt_of_lt_of_le hminv1 h12
    by_cases hv2max : d.max_val ≤ v2
    · rw [rank_eval_max d v2 (by linarith) hv2max]
      exact rank_le_one d v1 ⟨o1, o2, o3, o4, o5, o6⟩
    · have hv2 : v2 < d.max_val := lt_of_not_le hv2max
      have hv1 : v1 < d.max_val := lt_of_le_of_lt h12 hv2
      rcases le_or_lt v1 d.p10 with c1 | c1
      · rcases le_or_lt v2 d.p10 with c2 | c2
        · rw [rank_eval_seg1 d v1 ⟨o1, o2, o3, o4, o5, o6⟩ hminv1 c1 hv1,
            rank_eval_seg1 d v2 ⟨o1, o2, o3, o4, o5, o6⟩ hminv2 c2 hv2]
          exact div_term_mono 0.1 d.min_val d.p10 v1 v2 (by norm_num) (by linarith) h12
        · calc get_percentile_rank_interp d v1 ≤ 0.1 :=
                rank_ub_p10 d v1 ⟨o1, o2, o3, o4, o5, o6⟩ hv1 c1
            _ ≤ get_percentile_rank_interp d v2 :=
                rank_lb_p10 d v2 ⟨o1, o2, o3, o4, o5, o6⟩ c2
      · rcases le_or_lt v1 d.p25 with c3 | c3
        · rcases le_or_lt v2 d.p25 with c4 | c4
          · rw [rank_eval_seg2 d v1 ⟨o1, o2, o3, o4, o5, o6⟩ c1 c3 hv1,
              rank_eval_seg2 d v2 ⟨o1, o2, o3, o4, o5, o6⟩ (by linarith) c4 hv2]
            have := div_term_mono 0.15 d.p10 d.p25 v1 v2 (by norm_num) (by linarith) h12
            linarith
          · calc get_percentile_rank_interp d v1 ≤ 0.25 :=
                  rank_ub_p25 d v1 ⟨o1, o2, o3, o4, o5, o6⟩ hv1 c3
              _ ≤ get_percentile_rank_interp d v2 :=
                  rank_lb_p25 d v2 ⟨o1, o2, o3, o4, o5, o6⟩ c4
        · rcases le_or_lt v1 d.p50 with c5 | c5
          · rcases le_or_lt v2 d.p50 with c6 | c6
            · rw [rank_eval_seg3 d v1 ⟨o1, o2, o3, o4, o5, o6⟩ c3 c5 hv1,
                rank_eval_seg3 d v2 ⟨o1, o2, o3, o4, o5, o6⟩ (by linarith) c6 hv2]
              have := div_term_mono 0.25 d.p25 d.p50 v1 v2 (by norm_num) (by linarith) h12
              linarith
            · calc get_percentile_rank_interp d v1 ≤ 0.5 :=
                    rank_ub_p50 d v1 ⟨o1, o2, o3, o4, o5, o6⟩ hv1 c5
                _ ≤ get_percentile_rank_interp d v2 :=
                    rank_lb_p50 d v2 ⟨o1, o2, o3, o4, o5, o6⟩ c6
          · rcases le_or_lt v1 d.p75 with c7 | c7
            · rcases le_or_lt v2 d.p75 with c8 | c8
              · rw [rank_eval_seg4 d v1 ⟨o1, o2, o3, o4, o5, o6⟩ c5 c7 hv1,
                  rank_eval_seg4 d v2 ⟨o1, o2, o3, o4, o5, o6⟩ (by linarith) c8 hv2]
                have := div_term_mono 0.25 d.p50 d.p75 v1 v2 (by norm_num) (by linarith) h12
                linarith
              · calc get_percentile_rank_interp d v1 ≤ 0.75 :=
                      rank_ub_p75 d v1 ⟨o1, o2, o3, o4, o5, o6⟩ hv1 c7
                  _ ≤ get_percentile_rank_interp d v2 :=
                      rank_lb_p75 d v2 ⟨o1, o2, o3, o4, o5, o6⟩ c8
            · rcases le_or_lt v1 d.p90 with c9 | c9
              · rcases le_or_lt v2 d.p90 with c10 | c10
                · rw [rank_eval_seg5 d v1 ⟨o1, o2, o3, o4, o5, o6⟩ c7 c9 hv1,
                    rank_eval_seg5 d v2 ⟨o1, o2, o3, o4, o5, o6⟩ (by linarith) c10 hv2]
                  have := div_term_mono 0.15 d.p75 d.p90 v1 v2 (by norm_num) (by linarith) h12
                  linarith
                · calc get_percentile_rank_interp d v1 ≤ 0.9 :=
                        rank_ub_p90 d v1 ⟨o1, o2, o3, o4, o5, o6⟩ hv1 c9
                    _ ≤ get_percentile_rank_interp d v2 :=
                        rank_lb_p90 d v2 ⟨o1, o2, o3, o4, o5, o6⟩ c10
              · rw [rank_eval_seg6 d v1 ⟨o1, o2, o3, o4, o5, o6⟩ c9 hv1,
                  rank_eval_seg6 d v2 ⟨o1, o2, o3, o4, o5, o6⟩ (by linarith) hv2]
                have := div_term_mono 0.1 d.p90 d.max_val v1 v2 (by norm_num) (by linarith) h12
                linarith

/-- Claim C3, counterexample: the degenerate ordered snapshot with all
breakpoints equal to 5 satisfies `min ≤ p10 ≤ ... ≤ max`, yet
`rank(max)` is `0`, not `1.0` (the `value <= min` branch fires first). -/
theorem C3_counterexample :
    PercentileData.Ordered ⟨5, 5, 5, 5, 5, 5, 5⟩ ∧
    get_percentile_rank_interp ⟨5, 5, 5, 5, 5, 5, 5⟩
      (PercentileData.max_val ⟨5, 5, 5, 5, 5, 5, 5⟩) ≠ 1 := by
  constructor
  · decide
  · have he : get_percentile_rank_interp ⟨5, 5, 5, 5, 5, 5, 5⟩
        (PercentileData.max_val ⟨5, 5, 5, 5, 5, 5, 5⟩) = 0 := by
      norm_num [get_percentile_rank_interp]
    rw [he]
    norm_num

/-- Claim C3 (amended): for every stored percentile snapshot whose
breakpoints are ordered, rank is monotonically non-decreasing in value,
`rank(min) = 0.0`, `rank(max) = 1.0` provided `min < max` (when
`min = max` every value at or below `min`, including `max`, ranks `0.0`),
and every returned rank lies in `[0, 1]`. -/
theorem C3_rank_monotone (d : PercentileData) (hord : d.Ordered) :
    (∀ v1 v2 : ℚ, v1 ≤ v2 →
      get_percentile_rank_interp d v1 ≤ get_percentile_rank_interp d v2) ∧
    get_percentile_rank_interp d d.min_val = 0 ∧
    (d.min_val < d.max_val → get_percentile_rank_interp d d.max_val = 1) ∧
    (∀ v : ℚ, 0 ≤ get_percentile_rank_interp d v ∧
      get_percentile_rank_interp d v ≤ 1) := by
  refine ⟨fun v1 v2 h => rank_mono d v1 v2 hord h,
    rank_eval_min d d.min_val le_rfl,
    fun hlt => rank_eval_max d d.max_val (not_le.mpr hlt) le_rfl,
    fun v => ⟨rank_nonneg d v hord, rank_le_one d v hord⟩⟩

/-- Instantiation of `C3_rank_monotone` on the concrete ordered snapshot
`(min,p10,p25,p50,p75,p90,max) = (1,2,3,5,7,9,10)`. -/
theorem C3_witness :
    get_percentile_rank_interp ⟨2, 3, 5, 7, 9, 1, 10⟩ 4 ≤
      get_percentile_rank_interp ⟨2, 3, 5, 7, 9, 1, 10⟩ 6 ∧
    get_percentile_rank_interp ⟨2, 3, 5, 7, 9, 1, 10⟩ 1 = 0 ∧
    get_percentile_rank_interp ⟨2, 3, 5, 7, 9, 1, 10⟩ 10 = 1 ∧
    0 ≤ get_percentile_rank_interp ⟨2, 3, 5, 7, 9, 1, 10⟩ 6 := by
  have h := C3_rank_monotone ⟨2, 3, 5, 7, 9, 1, 10⟩ (by decide)
  exact ⟨h.1 4 6 (by norm_num), h.2.1, h.2.2.1 (by norm_num), (h.2.2.2 6).1⟩

/-- Claim C8, counterexample: on the ordered snapshot
`(min,p10,p25,p50,p75,p90,max) = (1,2,3,4,5,6,6)` the segment `p90–max` is
collapsed (`p90 = max = 6`), and the value `6` falling on it ranks `1.0`
(the `value >= max` branch), not the lower rank bound `0.9` of the segment. -/
theorem C8_counterexample :
    PercentileData.Ordered ⟨2, 3, 4, 5, 6, 1, 6⟩ ∧
    PercentileData.p90 ⟨2, 3, 4, 5, 6, 1, 6⟩ =
      PercentileData.max_val ⟨2, 3, 4, 5, 6, 1, 6⟩ ∧
    get_percentile_rank_interp ⟨2, 3, 4, 5, 6, 1, 6⟩ 6 ≠ 0.9 ∧
    get_percentile_rank_interp ⟨2, 3, 4, 5, 6, 1, 6⟩ 6 = 1 := by
  have he : get_percentile_rank_interp ⟨2, 3, 4, 5, 6, 1, 6⟩ 6 = 1 := by
    norm_num [get_percentile_rank_interp]
  refine ⟨by decide, rfl, ?_, he⟩
  rw [he]
  norm_num

/-- Claim C8 (amended): for every ordered snapshot, rank never divides by
zero — the guarded variant agrees with the code on every input — and a value
equal to the breakpoints of a collapsed segment receives the lower rank bound of
the lowest segment it falls on when it is strictly inside `(min, max)`;
a value at a collapsed `p90 = max` receives `1.0` (the `max` check wins). -/
theorem C8_no_div_by_zero (d : PercentileData) (hord : d.Ordered) :
    (∀ v : ℚ, get_percentile_rank_checked d v =
      some (get_percentile_rank_interp d v)) ∧
    (d.min_val = d.p10 → get_percentile_rank_interp d d.min_val = 0) ∧
    (d.p10 = d.p25 → d.min_val < d.p10 → d.p10 < d.max_val →
      get_percentile_rank_interp d d.p10 = 0.1) ∧
    (d.p25 = d.p50 → d.p10 < d.p25 → d.p25 < d.max_val →
      get_percentile_rank_interp d d.p25 = 0.25) ∧
    (d.p50 = d.p75 → d.p25 < d.p50 → d.p50 < d.max_val →
      get_percentile_rank_interp d d.p50 = 0.5) ∧
    (d.p75 = d.p90 → d.p50 < d.p75 → d.p75 < d.max_val →
      get_percentile_rank_interp d d.p75 = 0.75) ∧
    (d.p90 = d.max_val → d.min_val < d.p90 →
      get_percentile_rank_interp d d.p90 = 1) := by
  obtain ⟨o1, o2, o3, o4, o5, o6⟩ := hord
  refine ⟨?_, ?_, ?_, ?_, ?_, ?_, ?_⟩
  · intro v
    unfold get_percentile_rank_checked get_percentile_rank_interp
    split_ifs <;> first | rfl | (exfalso; linarith)
  · intro _
    exact rank_eval_min d d.min_val le_rfl
  · intro _ hmin hmax
    rw [rank_eval_seg1 d d.p10 ⟨o1, o2, o3, o4, o5, o6⟩ hmin le_rfl hmax,
      mul_div_assoc, div_self (sub_ne_zero.mpr (ne_of_gt hmin)), mul_one]
  · intro _ hlt hmax
    rw [rank_eval_seg2 d d.p25 ⟨o1, o2, o3, o4, o5, o6⟩ hlt le_rfl hmax,
      mul_div_assoc, div_self (sub_ne_zero.mpr (ne_of_gt hlt)), mul_one]
    norm_num
  · intro _ hlt hmax
    rw [rank_eval_seg3 d d.p50 ⟨o1, o2, o3, o4, o5, o6⟩ hlt le_rfl hmax,
      mul_div_assoc, div_self (sub_ne_zero.mpr (ne_of_gt hlt)), mul_one]
    norm_num
  · intro _ hlt hmax
    rw [rank_eval_seg4 d d.p75 ⟨o1, o2, o3, o4, o5, o6⟩ hlt le_rfl hmax,
      mul_div_assoc, div_self (sub_ne_zero.mpr (ne_of_gt hlt)), mul_one]
    norm_num
  · intro heq hmin
    exact rank_eval_max d d.p90 (not_le.mpr hmin) (le_of_eq heq.symm)

/-- Instantiation of `C8_no_div_by_zero` on the concrete snapshot
`(min,p10,p25,p50,p75,p90,max) = (1,2,2,5,7,9,10)` with the collapsed
segment `p10 = p25 = 2`. -/
theorem C8_witness :
    get_percentile_rank_checked ⟨2, 2, 5, 7, 9, 1, 10⟩ 4 =
      some (get_percentile_rank_interp ⟨2, 2, 5, 7, 9, 1, 10⟩ 4) ∧
    get_percentile_rank_interp ⟨2, 2, 5, 7, 9, 1, 10⟩ 2 = 0.1 := by
  have h := C8_no_div_by_zero ⟨2, 2, 5, 7, 9, 1, 10⟩ (by decide)
  exact ⟨h.1 4, h.2.2.1 rfl (by norm_num) (by norm_num)⟩

/-- Claim C1, counterexample: the band `target_min = 0 < target_max = 5`
satisfies the claimed hypotheses, yet for the below-band value `-1` the
code evaluates `50 * (1 - distance / target_min)` with `target_min = 0`
(`scores.py`, line 120) and raises `ZeroDivisionError` instead of
returning the claimed score `max(0, 50*(1 - 1/0))`. -/
theorem C1_counterexample :
    calculate_metric_score {} (fun _ _ => none) (fun _ => some (-1)) "m"
      ⟨"m", "p", "target_band", none, some 0, some 5⟩ =
      Except.error "ZeroDivisionError" := by
  norm_num [calculate_metric_score]

/-- Claim C1 (amended): for a `target_band` definition with non-null
`target_min < target_max`, `calculate_metric_score` returns exactly
`100*(1 - |value-center|/halfRange)` in band, and out of band the claimed
`max(0, 50*(1 - (target_min-value)/target_min))` below and
`max(0, 50*(1 - (value-target_max)/target_max))` above only when the
dividing bound is nonzero — with `target_min = 0` below band or
`target_max = 0` above band the code raises `ZeroDivisionError` instead
of returning a score.  For the band `[2, 15]`: value `8.5` scores `100`,
value `2` scores `0`, value `20` scores `50*(1 - 5/15)`. -/
theorem C1_target_band_score :
    (∀ (n : MetricNormalizer) (store : PctlStore)
      (metricsLatest : String → Option ℚ) (metric_id : String)
      (definition : MetricDefinition) (v tmin tmax : ℚ),
      metricsLatest metric_id = some v →
      definition.direction = "target_band" →
      definition.target_min = some tmin →
      definition.target_max = some tmax →
      tmin < tmax →
      ((tmin ≤ v → v ≤ tmax →
        calculate_metric_score n store metricsLatest metric_id definition =
          Except.ok
            (some (100 * (1 - |v - (tmin + tmax) / 2| / ((tmax - tmin) / 2))))) ∧
      (v < tmin → tmin ≠ 0 →
        calculate_metric_score n store metricsLatest metric_id definition =
          Except.ok (some (max 0 (50 * (1 - (tmin - v) / tmin))))) ∧
      (v < tmin → tmin = 0 →
        calculate_metric_score n store metricsLatest metric_id definition =
          Except.error "ZeroDivisionError") ∧
      (tmax < v → tmax ≠ 0 →
        calculate_metric_score n store metricsLatest metric_id definition =
          Except.ok (some (max 0 (50 * (1 - (v - tmax) / tmax))))) ∧
      (tmax < v → tmax = 0 →
        calculate_metric_score n store metricsLatest metric_id definition =
          Except.error "ZeroDivisionError"))) ∧
    calculate_metric_score {} (fun _ _ => none) (fun _ => some 8.5) "m"
      ⟨"m", "p", "target_band", none, some 2, some 15⟩ =
      Except.ok (some 100) ∧
    calculate_metric_score {} (fun _ _ => none) (fun _ => some 2) "m"
      ⟨"m", "p", "target_band", none, some 2, some 15⟩ =
      Except.ok (some 0) ∧
    calculate_metric_score {} (fun _ _ => none) (fun _ => some 20) "m"
      ⟨"m", "p", "target_band", none, some 2, some 15⟩ =
      Except.ok (some (50 * (1 - 5 / 15))) := by
  refine ⟨?_, ?_, ?_, ?_⟩
  · intro n store metricsLatest metric_id definition v tmin tmax hv hdir htm htM hlt
    have hnb : ∀ h1 : v < tmin, ¬(tmin ≤ v ∧ v ≤ tmax) :=
      fun h1 hc => absurd hc.1 (not_le.mpr h1)
    have hna : ∀ h1 : tmax < v, ¬(tmin ≤ v ∧ v ≤ tmax) :=
      fun h1 hc => absurd hc.2 (not_le.mpr h1)
    refine ⟨?_, ?_, ?_, ?_, ?_⟩
    · intro h1 h2
      simp only [calculate_metric_score, hv, hdir, htm, htM]
      rw [if_pos trivial, if_pos ⟨h1, h2⟩,
        if_neg (div_ne_zero (sub_ne_zero.mpr (ne_of_gt hlt)) two_ne_zero)]
    · intro h1 hne
      simp only [calculate_metric_score, hv, hdir, htm, htM]
      rw [if_pos trivial, if_neg (hnb h1), if_pos h1, if_neg hne]
    · intro h1 h0
      simp only [calculate_metric_score, hv, hdir, htm, htM]
      rw [if_pos trivial, if_neg (hnb h1), if_pos h1, if_pos h0]
    · intro h1 hne
      simp only [calculate_metric_score, hv, hdir, htm, htM]
      rw [if_pos trivial, if_neg (hna h1), if_neg (not_lt.mpr (by linarith)),
        if_neg hne]
    · intro h1 h0
      simp only [calculate_metric_score, hv, hdir, htm, htM]
      rw [if_pos trivial, if_neg (hna h1), if_neg (not_lt.mpr (by linarith)),
        if_pos h0]
  · norm_num [calculate_metric_score]
  · have habs : |(13 : ℚ) / 2| = 13 / 2 := abs_of_nonneg (by norm_num)
    norm_num [calculate_metric_score, habs]
  · norm_num [calculate_metric_score]

/-- Instantiation of the general part of `C1_target_band_score` at the
band `[2, 15]` and the in-band value `3`. -/
theorem C1_witness :
    calculate_metric_score {} (fun _ _ => none) (fun _ => some 3) "m"
      ⟨"m", "p", "target_band", none, some 2, some 15⟩ =
      Except.ok (some (100 * (1 - |(3 : ℚ) - (2 + 15) / 2| / ((15 - 2) / 2)))) :=
  (C1_target_band_score.1 {} (fun _ _ => none) (fun _ => some 3) "m"
    ⟨"m", "p", "target_band", none, some 2, some 15⟩ 3 2 15 rfl rfl rfl rfl
    (by norm_num)).1 (by norm_num) (by norm_num)

/-- Claim C10: a `target_band` metric whose latest value exists but whose
`target_min` or `target_max` is null scores the default `50.0` rather than
being absent or an error. -/
theorem C10_null_band_defaults_50 (n : MetricNormalizer) (store : PctlStore)
    (metricsLatest : String → Option ℚ) (metric_id : String)
    (definition : MetricDefinition) (v : ℚ)
    (hv : metricsLatest metric_id = some v)
    (hdir : definition.direction = "target_band")
    (hnull : definition.target_min = none ∨ definition.target_max = none) :
    calculate_metric_score n store metricsLatest metric_id definition =
      Except.ok (some 50) := by
  rcases htm : definition.target_min with _ | a
  · simp only [calculate_metric_score, hv, hdir, htm]
    rw [if_pos trivial]
  · rcases htM : definition.target_max with _ | b
    · simp only [calculate_metric_score, hv, hdir, htm, htM]
      rw [if_pos trivial]
    · exfalso
      rcases hnull with h | h
      · rw [htm] at h; exact Option.noConfusion h
      · rw [htM] at h; exact Option.noConfusion h

/-- Instantiation of `C10_null_band_defaults_50` on a definition with a
null `target_min`. -/
theorem C10_witness :
    calculate_metric_score {} (fun _ _ => none) (fun _ => some 3) "m"
      ⟨"m", "p", "target_band", none, none, some 15⟩ = Except.ok (some 50) :=
  C10_null_band_defaults_50 {} (fun _ _ => none) (fun _ => some 3) "m"
    ⟨"m", "p", "target_band", none, none, some 15⟩ 3 rfl rfl (Or.inl rfl)

/-- Claim C9 (code bug): on a fresh 24h snapshot with shares
`[30, 25, 20, 15, 10]` the query of `calculate_pool_hhi` selects only the
`pool` and `share` columns, so the subsequent `ts` lookup on the first row raises
`KeyError` on `ts` and no HHI (expected `0.2150`) is ever stored. -/
theorem C9_pool_hhi_raises :
    calculate_pool_hhi
      [⟨1000000, "Pool1", 30⟩, ⟨1000000, "Pool2", 25⟩, ⟨1000000, "Pool3", 20⟩,
       ⟨1000000, "Pool4", 15⟩, ⟨1000000, "Pool5", 10⟩] 1000000 =
      Except.error "KeyError: ts" := rfl

/-- The accumulator loop of `calculate_pillar_score` computes, over any
prefix, the sum of the weights and of the weighted scores of the present
metrics. -/
theorem pillar_foldl_spec (metric_scores : String → Option ℚ) :
    ∀ (l : List MetricDefinition) (a b : ℚ),
      l.foldl
        (fun (acc : ℚ × ℚ) m =>
          let weight := weightOrOne m.weight
          match metric_scores m.metric_id with
          | some score => (acc.1 + weight, acc.2 + score * weight)
          | none => acc)
        (a, b) =
      (a + ((l.filter (fun m => (metric_scores m.metric_id).isSome)).map
          (fun m => weightOrOne m.weight)).sum,
       b + ((l.filter (fun m => (metric_scores m.metric_id).isSome)).map
          (fun m => (metric_scores m.metric_id).getD 0 * weightOrOne m.weight)).sum) := by
  intro l
  induction l with
  | nil => intro a b; simp
  | cons m t ih =>
    intro a b
    rw [List.foldl_cons]
    rcases hm : metric_scores m.metric_id with _ | s
    · simp only [hm]
      rw [ih a b]
      simp [List.filter_cons, hm]
    · simp only [hm]
      rw [ih]
      simp only [List.filter_cons, hm, Option.isSome_some, if_pos, List.map_cons,
        List.sum_cons, Option.getD_some, Prod.mk.injEq]
      constructor <;> ring

/-- The accumulator loop of `calculate_overall_score` computes the sum of
the weights and of the weighted scores of the present pillars. -/
theorem overall_foldl_spec (pillar_scores : String → Option ℚ) :
    ∀ (l : List PillarDefinition) (a b : ℚ),
      l.foldl
        (fun (acc : ℚ × ℚ) p =>
          let weight := (p.weight).getD 0
          match pillar_scores p.pillar_id with
          | some score => (acc.1 + weight, acc.2 + score * weight)
          | none => acc)
        (a, b) =
      (a + ((l.filter (fun p => (pillar_scores p.pillar_id).isSome)).map
          (fun p => (p.weight).getD 0)).sum,
       b + ((l.filter (fun p => (pillar_scores p.pillar_id).isSome)).map
          (fun p => (pillar_scores p.pillar_id).getD 0 * (p.weight).getD 0)).sum) := by
  intro l
  induction l with
  | nil => intro a b; simp
  | cons p t ih =>
    intro a b
    rw [List.foldl_cons]
    rcases hp : pillar_scores p.pillar_id with _ | s
    · simp only [hp]
      rw [ih a b]
      simp [List.filter_cons, hp]
    · simp only [hp]
      rw [ih]
      simp only [List.filter_cons, hp, Option.isSome_some, if_pos, List.map_cons,
        List.sum_cons, Option.getD_some, Prod.mk.injEq]
      constructor <;> ring

/-- Claim C2, counterexample: the single metric of pillar `p1` has the
explicit weight `0` and the present score `80`; the claim says it must be
aggregated with weight `0`, making the total weight zero and the pillar
score absent — but the code evaluates the or-default `weight or 1.0`, which
turns the falsy `0` into `1.0` and yields the present score `80`. -/
theorem C2_counterexample :
    calculate_pillar_score [⟨"m1", "p1", "higher_better", some 0, none, none⟩]
      "p1" (fun id => if id = "m1" then some 80 else none) = some 80 := by
  norm_num [calculate_pillar_score, weightOrOne, List.filter]

/-- Claim C2 (amended): `calculate_pillar_score` is the weighted mean over
the metric definitions of this pillar whose score is present — absent metrics
excluded from numerator and denominator, weight defaulting to `1.0` when
unset **or when explicitly 0** (Python falsy `or`), absent when the total
weight of present metrics is zero; `calculate_overall_score` aggregates
present pillars the same way except that an unset pillar weight defaults
to `0`. -/
theorem C2_weighted_mean (metrics : List MetricDefinition) (pillar_id : String)
    (metric_scores : String → Option ℚ) (pillars : List PillarDefinition)
    (pillar_scores : String → Option ℚ) :
    (calculate_pillar_score metrics pillar_id metric_scores =
      if (((metrics.filter (fun m => m.pillar_id = pillar_id)).filter
            (fun m => (metric_scores m.metric_id).isSome)).map
          (fun m => weightOrOne m.weight)).sum = 0 then none
      else some
        ((((metrics.filter (fun m => m.pillar_id = pillar_id)).filter
            (fun m => (metric_scores m.metric_id).isSome)).map
          (fun m => (metric_scores m.metric_id).getD 0 * weightOrOne m.weight)).sum /
         (((metrics.filter (fun m => m.pillar_id = pillar_id)).filter
            (fun m => (metric_scores m.metric_id).isSome)).map
          (fun m => weightOrOne m.weight)).sum)) ∧
    (calculate_overall_score pillars pillar_scores =
      if ((pillars.filter (fun p => (pillar_scores p.pillar_id).isSome)).map
          (fun p => (p.weight).getD 0)).sum = 0 then none
      else some
        (((pillars.filter (fun p => (pillar_scores p.pillar_id).isSome)).map
          (fun p => (pillar_scores p.pillar_id).getD 0 * (p.weight).getD 0)).sum /
         ((pillars.filter (fun p => (pillar_scores p.pillar_id).isSome)).map
          (fun p => (p.weight).getD 0)).sum)) := by
  constructor
  · by_cases hemp : (metrics.filter (fun m => m.pillar_id = pillar_id)).isEmpty
    · rw [List.isEmpty_iff] at hemp
      simp [calculate_pillar_score, hemp]
    · unfold calculate_pillar_score
      rw [if_neg hemp, pillar_foldl_spec metric_scores]
      simp only [zero_add]
  · unfold calculate_overall_score
    rw [overall_foldl_spec pillar_scores]
    simp only [zero_add]

/-- Claim C4: the rank lookup uses the snapshot of the requested window,
falls back to the snapshot of the fallback window when the first is absent, and fails
(returns `none`) when neither exists; in that case the score of a
`higher_better` or `lower_better` metric is absent, never defaulted. -/
theorem C4_rank_lookup_fallback (n : MetricNormalizer) (store : PctlStore)
    (metric_id : String) (v : ℚ) (w : Option ℤ) :
    (∀ pd, store metric_id (w.getD n.window_days) = some pd →
      n.get_percentile_rank store metric_id v w =
        some (get_percentile_rank_interp pd v)) ∧
    (store metric_id (w.getD n.window_days) = none →
      ∀ pd, store metric_id n.fallback_days = some pd →
        n.get_percentile_rank store metric_id v w =
          some (get_percentile_rank_interp pd v)) ∧
    (store metric_id (w.getD n.window_days) = none →
      store metric_id n.fallback_days = none →
      n.get_percentile_rank store metric_id v w = none) ∧
    (∀ (metricsLatest : String → Option ℚ) (definition : MetricDefinition),
      store metric_id n.window_days = none →
      store metric_id n.fallback_days = none →
      definition.direction = "higher_better" ∨
        definition.direction = "lower_better" →
      calculate_metric_score n store metricsLatest metric_id definition =
        Except.ok none) := by
  refine ⟨?_, ?_, ?_, ?_⟩
  · intro pd h1
    simp [MetricNormalizer.get_percentile_rank, h1]
  · intro h1 pd h2
    simp [MetricNormalizer.get_percentile_rank, h1, h2]
  · intro h1 h2
    simp [MetricNormalizer.get_percentile_rank, h1, h2]
  · intro metricsLatest definition h1 h2 hdir
    rcases hv : metricsLatest metric_id with _ | v2
    · simp [calculate_metric_score, hv]
    · have hrank : n.get_percentile_rank store metric_id v2 none = none := by
        simp [MetricNormalizer.get_percentile_rank, h1, h2]
      rcases hdir with h | h <;>
        simp [calculate_metric_score, hv, h, hrank]

/-- Instantiation of `C4_rank_lookup_fallback`: an empty snapshot store
gives no rank and an absent `higher_better` score; a store with only a
90-day snapshot is served through the fallback. -/
theorem C4_witness :
    MetricNormalizer.get_percentile_rank {} (fun _ _ => none) "m" 5 none =
      none ∧
    calculate_metric_score {} (fun _ _ => none) (fun _ => some 5) "m"
      ⟨"m", "p", "higher_better", none, none, none⟩ = Except.ok none ∧
    MetricNormalizer.get_percentile_rank {}
      (fun _ w => if w = 90 then some ⟨2, 3, 5, 7, 9, 1, 10⟩ else none)
      "m" 5 none =
      some (get_percentile_rank_interp ⟨2, 3, 5, 7, 9, 1, 10⟩ 5) := by
  refine ⟨(C4_rank_lookup_fallback {} (fun _ _ => none) "m" 5 none).2.2.1 rfl rfl,
    (C4_rank_lookup_fallback {} (fun _ _ => none) "m" 5 none).2.2.2
      (fun _ => some 5) ⟨"m", "p", "higher_better", none, none, none⟩ rfl rfl
      (Or.inl rfl),
    (C4_rank_lookup_fallback {}
      (fun _ w => if w = 90 then some ⟨2, 3, 5, 7, 9, 1, 10⟩ else none)
      "m" 5 none).2.1 (by norm_num) ⟨2, 3, 5, 7, 9, 1, 10⟩ (by norm_num)⟩

/-- Claim C6: when the rank lookup succeeds with rank `r ∈ [0,1]`, the
metric scores exactly `100*r` for `higher_better` and `100*(1-r)` for
`lower_better`, and the score lies in `[0, 100]`. -/
theorem C6_rank_to_score (n : MetricNormalizer) (store : PctlStore)
    (metricsLatest : String → Option ℚ) (metric_id : String)
    (definition : MetricDefinition) (v r : ℚ)
    (hv : metricsLatest metric_id = some v)
    (hr : n.get_percentile_rank store metric_id v none = some r)
    (hr0 : 0 ≤ r) (hr1 : r ≤ 1) :
    (definition.direction = "higher_better" →
      calculate_metric_score n store metricsLatest metric_id definition =
        Except.ok (some (100 * r)) ∧ 0 ≤ 100 * r ∧ 100 * r ≤ 100) ∧
    (definition.direction = "lower_better" →
      calculate_metric_score n store metricsLatest metric_id definition =
        Except.ok (some (100 * (1 - r))) ∧
        0 ≤ 100 * (1 - r) ∧ 100 * (1 - r) ≤ 100) := by
  constructor
  · intro hdir
    refine ⟨?_, by linarith, by linarith⟩
    have hred : calculate_metric_score n store metricsLatest metric_id definition =
        Except.ok (some (r * 100)) := by
      simp [calculate_metric_score, hv, hdir, hr]
    rw [hred]
    simp only [Except.ok.injEq, Option.some.injEq]
    ring
  · intro hdir
    refine ⟨?_, by linarith, by linarith⟩
    have hred : calculate_metric_score n store metricsLatest metric_id definition =
        Except.ok (some ((1 - r) * 100)) := by
      simp [calculate_metric_score, hv, hdir, hr]
    rw [hred]
    simp only [Except.ok.injEq, Option.some.injEq]
    ring

/-- Instantiation of `C6_rank_to_score` on a constant store whose snapshot
ranks the value `7` at `1.0`. -/
theorem C6_witness :
    calculate_metric_score {} (fun _ _ => some ⟨5, 5, 5, 5, 5, 5, 5⟩)
      (fun _ => some 7) "m" ⟨"m", "p", "higher_better", none, none, none⟩ =
      Except.ok (some (100 * 1)) := by
  have hr : MetricNormalizer.get_percentile_rank {}
      (fun _ _ => some ⟨5, 5, 5, 5, 5, 5, 5⟩) "m" 7 none = some 1 := by
    norm_num [MetricNormalizer.get_percentile_rank, get_percentile_rank_interp]
  exact ((C6_rank_to_score {} (fun _ _ => some ⟨5, 5, 5, 5, 5, 5, 5⟩)
    (fun _ => some 7) "m" ⟨"m", "p", "higher_better", none, none, none⟩ 7 1
    rfl hr (by norm_num) (by norm_num)).1 rfl).1

/-! ### Sorting and percentile evaluation lemmas -/

theorem sortList_of_pairwise : ∀ l : List ℚ, l.Pairwise (· ≤ ·) → sortList l = l := by
  intro l hl
  induction l with
  | nil => rfl
  | cons x t ih =>
    rcases List.pairwise_cons.mp hl with ⟨hx, ht⟩
    show insertSorted x (sortList t) = x :: t
    rw [ih ht]
    cases t with
    | nil => rfl
    | cons y ys =>
      show (if x ≤ y then x :: y :: ys else y :: insertSorted x ys) = x :: y :: ys
      rw [if_pos (hx y (by simp))]

theorem oneTo100_pairwise : oneTo100.Pairwise (· ≤ ·) := by
  rw [oneTo100, List.pairwise_map]
  apply List.Pairwise.imp ?_ (List.pairwise_lt_range 100)
  intro a b hab
  have : (a : ℚ) < b := by exact_mod_cast hab
  linarith

theorem oneTo100_getD (i : ℕ) (hi : i < 100) (d : ℚ) :
    oneTo100.getD i d = (i : ℚ) + 1 := by
  rw [oneTo100, List.getD_eq_getElem?_getD, List.getElem?_map, List.getElem?_range hi]
  rfl

theorem oneTo100_length : oneTo100.length = 100 := by
  rw [oneTo100, List.length_map, List.length_range]

theorem np_oneTo100_p50 : npPercentile oneTo100 50 = 50.5 := by
  have hs : sortList oneTo100 = oneTo100 := sortList_of_pairwise _ oneTo100_pairwise
  simp only [npPercentile, hs, oneTo100_length]
  push_cast
  have h1 : (⌊((100 : ℚ) - 1) * 50 / 100⌋ : ℤ) = 49 := by norm_num
  rw [h1]
  have h2 : ((49 : ℤ)).toNat = 49 := rfl
  rw [h2]
  have h3 : (49 : ℕ) + 1 = 50 := rfl
  rw [h3, oneTo100_getD 49 (by norm_num), oneTo100_getD 50 (by norm_num)]
  push_cast
  norm_num

theorem np_oneTo100_p10 : npPercentile oneTo100 10 = 10.9 := by
  have hs : sortList oneTo100 = oneTo100 := sortList_of_pairwise _ oneTo100_pairwise
  simp only [npPercentile, hs, oneTo100_length]
  push_cast
  have h1 : (⌊((100 : ℚ) - 1) * 10 / 100⌋ : ℤ) = 9 := by norm_num
  rw [h1]
  have h2 : ((9 : ℤ)).toNat = 9 := rfl
  rw [h2]
  have h3 : (9 : ℕ) + 1 = 10 := rfl
  rw [h3, oneTo100_getD 9 (by norm_num), oneTo100_getD 10 (by norm_num)]
  push_cast
  norm_num

theorem np_oneTo100_p90 : npPercentile oneTo100 90 = 90.1 := by
  have hs : sortList oneTo100 = oneTo100 := sortList_of_pairwise _ oneTo100_pairwise
  simp only [npPercentile, hs, oneTo100_length]
  push_cast
  have h1 : (⌊((100 : ℚ) - 1) * 90 / 100⌋ : ℤ) = 89 := by norm_num
  rw [h1]
  have h2 : ((89 : ℤ)).toNat = 89 := rfl
  rw [h2]
  have h3 : (89 : ℕ) + 1 = 90 := rfl
  rw [h3, oneTo100_getD 89 (by norm_num), oneTo100_getD 90 (by norm_num)]
  push_cast
  norm_num

theorem foldl_min_of_lower (l : List ℚ) : ∀ x : ℚ, (∀ y ∈ l, x ≤ y) →
    l.foldl min x = x := by
  induction l with
  | nil => intro x _; rfl
  | cons y t ih =>
    intro x h
    rw [List.foldl_cons, min_eq_left (h y (by simp))]
    exact ih x (fun z hz => h z (by simp [hz]))

theorem foldl_max_lower (l : List ℚ) : ∀ x : ℚ, x ≤ l.foldl max x := by
  induction l with
  | nil => intro x; exact le_rfl
  | cons y t ih =>
    intro x
    rw [List.foldl_cons]
    exact le_trans (le_max_left x y) (ih (max x y))

theorem foldl_max_mem_le (l : List ℚ) : ∀ (x y : ℚ), y ∈ l → y ≤ l.foldl max x := by
  induction l with
  | nil => intro x y hy; simp at hy
  | cons z t ih =>
    intro x y hy
    rw [List.foldl_cons]
    rcases List.mem_cons.mp hy with h | h
    · rw [h]
      exact le_trans (le_max_right x z) (foldl_max_lower t (max x z))
    · exact ih (max x z) y h

theorem foldl_max_le_of_bounds (l : List ℚ) : ∀ (x b : ℚ), x ≤ b →
    (∀ y ∈ l, y ≤ b) → l.foldl max x ≤ b := by
  induction l with
  | nil => intro x b hx _; exact hx
  | cons y t ih =>
    intro x b hx h
    rw [List.foldl_cons]
    exact ih (max x y) b (max_le hx (h y (by simp)))
      (fun z hz => h z (by simp [hz]))

theorem listMin_oneTo100 : listMin oneTo100 = 1 := by
  rcases he : oneTo100 with _ | ⟨x, t⟩
  · have := oneTo100_length
    rw [he] at this
    simp at this
  · have h1 := oneTo100_getD 0 (by norm_num) 0
    rw [he] at h1
    simp only [List.getD_cons_zero] at h1
    have hp := oneTo100_pairwise
    rw [he, List.pairwise_cons] at hp
    show t.foldl min x = 1
    rw [foldl_min_of_lower t x hp.1, h1]
    norm_num

theorem listMax_oneTo100 : listMax oneTo100 = 100 := by
  have hmem : (100 : ℚ) ∈ oneTo100 := by
    rw [oneTo100]
    exact List.mem_map.mpr ⟨99, List.mem_range.mpr (by norm_num), by norm_num⟩
  have hub : ∀ y ∈ oneTo100, y ≤ (100 : ℚ) := by
    intro y hy
    rw [oneTo100] at hy
    obtain ⟨i, hi, rfl⟩ := List.mem_map.mp hy
    have : (i : ℚ) ≤ 99 := by
      have := List.mem_range.mp hi
      exact_mod_cast Nat.lt_succ_iff.mp (by omega)
    linarith
  rcases he : oneTo100 with _ | ⟨x, t⟩
  · rw [he] at hmem
    simp at hmem
  · rw [he] at hmem hub
    show t.foldl max x = 100
    apply le_antisymm
    · exact foldl_max_le_of_bounds t x 100 (hub x (by simp))
        (fun z hz => hub z (by simp [hz]))
    · rcases List.mem_cons.mp hmem with h | h
      · rw [← h]
        exact foldl_max_lower t 100
      · exact foldl_max_mem_le t x 100 h

/-- Claim C5: `calculate_percentiles` uses the primary window when it holds
at least 30 measurements, otherwise retries with the fallback window;
fewer than 10 fallback points produce no snapshot; otherwise one snapshot
tagged with the window actually used is persisted, with the stats computed
by linear-interpolation percentiles — on `1..100`, `p50 = 50.5`,
`p10 = 10.9`, `p90 = 90.1`, `min = 1`, `max = 100`. -/
theorem C5_percentile_windows (n : MetricNormalizer) (history : ℤ → List ℚ) :
    (30 ≤ (history n.window_days).length →
      n.calculate_percentiles history =
        some (n.window_days, makePercentiles (history n.window_days))) ∧
    ((history n.window_days).length < 30 →
      10 ≤ (history n.fallback_days).length →
      n.calculate_percentiles history =
        some (n.fallback_days, makePercentiles (history n.fallback_days))) ∧
    ((history n.window_days).length < 30 →
      (history n.fallback_days).length < 10 →
      n.calculate_percentiles history = none) ∧
    (makePercentiles oneTo100).p50 = 50.5 ∧
    (makePercentiles oneTo100).p10 = 10.9 ∧
    (makePercentiles oneTo100).p90 = 90.1 ∧
    (makePercentiles oneTo100).min_val = 1 ∧
    (makePercentiles oneTo100).max_val = 100 := by
  refine ⟨?_, ?_, ?_, ?_, ?_, ?_, ?_, ?_⟩
  · intro h30
    unfold MetricNormalizer.calculate_percentiles
    rw [if_neg (not_lt.mpr h30)]
  · intro h30 h10
    unfold MetricNormalizer.calculate_percentiles
    rw [if_pos h30, if_neg (not_lt.mpr h10)]
  · intro h30 h10
    unfold MetricNormalizer.calculate_percentiles
    rw [if_pos h30, if_pos h10]
  · exact np_oneTo100_p50
  · exact np_oneTo100_p10
  · exact np_oneTo100_p90
  · exact listMin_oneTo100
  · exact listMax_oneTo100

/-- Instantiation of `C5_percentile_windows` on a history with 100 points
in the primary window. -/
theorem C5_witness :
    MetricNormalizer.calculate_percentiles {}
      (fun w => if w = 365 then oneTo100 else []) =
      some (365, makePercentiles oneTo100) := by
  have h := (C5_percentile_windows {}
    (fun w => if w = 365 then oneTo100 else [])).1
  have h30 : 30 ≤ ((fun w : ℤ => if w = 365 then oneTo100 else [])
      (MetricNormalizer.window_days {})).length := by
    show 30 ≤ (if (365 : ℤ) = 365 then oneTo100 else []).length
    rw [if_pos rfl, oneTo100_length]
    norm_num
  exact h h30

/-! ### Lemmas about the latest-row selection and the trend computation -/

theorem maxby_foldl_spec (t : List (ℤ × ℚ)) : ∀ a : ℤ × ℚ,
    (t.foldl (fun a q => if a.1 < q.1 then q else a) a = a ∨
      t.foldl (fun a q => if a.1 < q.1 then q else a) a ∈ t) ∧
    a.1 ≤ (t.foldl (fun a q => if a.1 < q.1 then q else a) a).1 ∧
    ∀ q ∈ t, q.1 ≤ (t.foldl (fun a q => if a.1 < q.1 then q else a) a).1 := by
  induction t with
  | nil => intro a; exact ⟨Or.inl rfl, le_rfl, by simp⟩
  | cons r t ih =>
    intro a
    rw [List.foldl_cons]
    by_cases har : a.1 < r.1
    · rw [if_pos har]
      obtain ⟨hmem, hle, hall⟩ := ih r
      refine ⟨?_, le_trans (le_of_lt har) hle, ?_⟩
      · rcases hmem with h | h
        · exact Or.inr (by simp [h])
        · exact Or.inr (by simp [h])
      · intro q hq
        rcases List.mem_cons.mp hq with h | h
        · rw [h]; exact hle
        · exact hall q h
    · rw [if_neg har]
      obtain ⟨hmem, hle, hall⟩ := ih a
      refine ⟨?_, hle, ?_⟩
      · rcases hmem with h | h
        · exact Or.inl h
        · exact Or.inr (by simp [h])
      · intro q hq
        rcases List.mem_cons.mp hq with h | h
        · rw [h]; exact le_trans (not_lt.mp har) hle
        · exact hall q h

/-- When the row timestamps are distinct, `latestScore` returns exactly
the row with the maximal timestamp. -/
theorem latestScore_eq_max (rows : List (ℤ × ℚ)) (p : ℤ × ℚ)
    (hp : p ∈ rows) (hmax : ∀ q ∈ rows, q.1 ≤ p.1)
    (hnd : (rows.map Prod.fst).Nodup) : latestScore rows = some p := by
  rcases rows with _ | ⟨r, t⟩
  · simp at hp
  · obtain ⟨hmem, hle, hall⟩ := maxby_foldl_spec t r
    have hm_mem : t.foldl (fun a q => if a.1 < q.1 then q else a) r ∈ r :: t := by
      rcases hmem with h | h
      · rw [h]; simp
      · simp [h]
    have h1 : (t.foldl (fun a q => if a.1 < q.1 then q else a) r).1 ≤ p.1 :=
      hmax _ hm_mem
    have h2 : p.1 ≤ (t.foldl (fun a q => if a.1 < q.1 then q else a) r).1 := by
      rcases List.mem_cons.mp hp with h | h
      · rw [h]; exact hle
      · exact hall p h
    have heq := List.inj_on_of_nodup_map hnd hm_mem hp (le_antisymm h1 h2)
    show some (t.foldl (fun a q => if a.1 < q.1 then q else a) r) = some p
    rw [heq]

/-- Claim C7: the trend takes the newest score and the newest score with
timestamp at or before `cutoff = now - days*86400` (nearest-prior sample)
and returns `(current - historical) / historical * 100`; it is absent when
there is no current score, no record at or before the cutoff, or the
historical score is zero. -/
theorem C7_trend_nearest_prior (rows : List (ℤ × ℚ)) (now days : ℤ)
    (hnd : (rows.map Prod.fst).Nodup) :
    (rows = [] → calculate_trend rows now days = none) ∧
    (∀ tc sc, (tc, sc) ∈ rows → (∀ q ∈ rows, q.1 ≤ tc) →
      ((∀ q ∈ rows, ¬ q.1 ≤ now - days * 86400) →
        calculate_trend rows now days = none) ∧
      (∀ th sh, (th, sh) ∈ rows → th ≤ now - days * 86400 →
        (∀ q ∈ rows, q.1 ≤ now - days * 86400 → q.1 ≤ th) →
        ((sh = 0 → calculate_trend rows now days = none) ∧
         (sh ≠ 0 → calculate_trend rows now days =
            some ((sc - sh) / sh * 100))))) := by
  constructor
  · intro h
    rw [h]
    rfl
  · intro tc sc htc hmaxc
    have hcur : latestScore rows = some (tc, sc) :=
      latestScore_eq_max rows (tc, sc) htc hmaxc hnd
    constructor
    · intro hnone
      have hfil : rows.filter (fun r => r.1 ≤ now - days * 86400) = [] := by
        rw [List.filter_eq_nil]
        intro q hq
        simpa using hnone q hq
      have hnil : latestScore ([] : List (ℤ × ℚ)) = none := rfl
      simp [calculate_trend, hcur, hfil, hnil]
    · intro th sh hth hcut hmaxh
      have hndf : ((rows.filter
          (fun r => r.1 ≤ now - days * 86400)).map Prod.fst).Nodup := by
        have hsub : (rows.filter
            (fun r => r.1 ≤ now - days * 86400)).Sublist rows :=
          List.filter_sublist rows
        exact hnd.sublist (hsub.map Prod.fst)
      have hmemf : (th, sh) ∈ rows.filter
          (fun r => r.1 ≤ now - days * 86400) :=
        List.mem_filter.mpr ⟨hth, by simpa using hcut⟩
      have hmaxf : ∀ q ∈ rows.filter
          (fun r => r.1 ≤ now - days * 86400), q.1 ≤ th := by
        intro q hq
        have hq2 := List.mem_filter.mp hq
        exact hmaxh q hq2.1 (by simpa using hq2.2)
      have hhist : latestScore (rows.filter
          (fun r => r.1 ≤ now - days * 86400)) = some (th, sh) :=
        latestScore_eq_max _ _ hmemf hmaxf hndf
      constructor
      · intro h0
        simp [calculate_trend, hcur, hhist, h0]
      · intro h0
        simp [calculate_trend, hcur, hhist, h0]

/-- Instantiation of `C7_trend_nearest_prior` on two score rows: the
current score `90` at `ts = 2000000` against the historical score `80` at
`ts = 100 ≤ cutoff = 2000000 - 7*86400`. -/
theorem C7_witness :
    calculate_trend [(100, 80), (2000000, 90)] 2000000 7 =
      some ((90 - 80) / 80 * 100) := by
  have h := (C7_trend_nearest_prior [(100, 80), (2000000, 90)] 2000000 7
    (by decide)).2 2000000 90 (by decide) (by decide)
  exact (h.2 100 80 (by decide) (by decide) (by decide)).2 (by norm_num)
